import Mathlib

/-!
Verification of the clify binding/coercion/merge engine (src/clify/main.py).

The Python source is shallowly embedded: Python values that can occur as
parameter defaults or bound arguments become the inductive type `Value`;
Python dicts become association lists with first-key lookup and the
replace-in-place/append-on-fresh assignment of `dictInsert`; exceptions
become an explicit `ClifyError` error type threaded through `Except`.
String manipulation is done on the character list underlying `String` so
that every definition evaluates by kernel reduction.
-/

set_option autoImplicit false

/-- Model of the Python values the engine handles: strings, ints, booleans,
lists of strings, `None`, and the two module sentinels `NOT_PROVIDED`
(main.py line 24) and `EMPTY` (main.py line 25). -/
inductive Value where
  | VStr : String → Value
  | VInt : Int → Value
  | VBool : Bool → Value
  | VList : List String → Value
  | VNone : Value
  | VNotProvided : Value
  | VEmpty : Value
deriving DecidableEq, Repr

/-- One entry of the list `defaults` built by
`CommandLineFunction._build_arg_parser` (main.py lines 126-141):
parameter name, default value (`Value.VEmpty` when the parameter has no
default), and whether the parameter is keyword-only. -/
structure ParamDescriptor where
  name : String
  default : Value
  kw_only : Bool
deriving DecidableEq, Repr

/-- The exceptions the engine raises, by raise site:
`malformedExtra` is the RuntimeError of `_parse_extra_kwargs`
(spec name MalformedExtraArgumentError), `strictViolation` is the
ValueError of the strict-mode check (spec name StrictModeViolationError),
`conflict` is the TypeError of the three-way overlap check
(spec name ConflictError), and `attributeError` is the AttributeError that
Python raises when the message of that TypeError is being formatted with
an attribute the target does not have (main.py line 307 reads
`self.obj.__name__`, which a `DictWrapper` or an ordinary instance lacks);
it carries the missing attribute name. -/
inductive ClifyError where
  | malformedExtra : String → ClifyError
  | strictViolation : List String → ClifyError
  | conflict : List String → ClifyError
  | attributeError : String → ClifyError
deriving DecidableEq, Repr

/-- Python truthiness of a string: `bool(s)` is true exactly when `s` is
nonempty. -/
def pyBool (s : String) : Bool :=
  s != ""

/-- The tuple of tokens `("0", "False", "F", "false", "f")` tested by
`_bool.__new__` (main.py line 30). -/
def falseTokens : List String :=
  ["0", "False", "F", "false", "f"]

/-- The class `_bool` (main.py lines 28-32): the five listed tokens map to
`False`, anything else goes through Python truthiness `bool(val)`. -/
def _bool (val : String) : Bool :=
  if val ∈ falseTokens then false else pyBool val

/-- Accumulate decimal digits; fails on a non-digit character. -/
def decDigits : List Char → Nat → Option Nat
  | [], acc => some acc
  | c :: cs, acc =>
      if c.isDigit then decDigits cs (10 * acc + (c.toNat - 48)) else none

/-- Python `int(s)` on the shapes of string this model needs: optional
surrounding whitespace, an optional sign, then one or more decimal digits;
anything else fails (in Python, raises ValueError, which argparse turns
into a parse error). -/
def pyInt? (s : String) : Option Int :=
  match ((s.data.dropWhile Char.isWhitespace).reverse.dropWhile Char.isWhitespace).reverse with
  | [] => none
  | '-' :: rest =>
      if rest = [] then none else (decDigits rest 0).map fun n => -(n : Int)
  | '+' :: rest =>
      if rest = [] then none else (decDigits rest 0).map fun n => (n : Int)
  | cs => (decDigits cs 0).map fun n => (n : Int)

/-- The registered coercion of an option, one constructor per Python type
that can appear as `type(default)` in this model, plus `noneTy` for the
uncoerced case. -/
inductive PyTy where
  | noneTy
  | intTy
  | strTy
  | boolTy
  | listTy
  | notProvidedTy
deriving DecidableEq, Repr

/-- The coercion selected for a registered option by
`CommandLineFunction._build_arg_parser` (main.py lines 161-162):
`default_type = None if (default is EMPTY or default is None) else type(default)`
followed by `default_type = _bool if default_type is bool else default_type`.
The identical two lines appear in `CommandLineObject._build_arg_parser`
(main.py lines 277-278). -/
def defaultTypeOf : Value → PyTy
  | .VEmpty => .noneTy
  | .VNone => .noneTy
  | .VInt _ => .intTy
  | .VStr _ => .strTy
  | .VBool _ => .boolTy
  | .VList _ => .listTy
  | .VNotProvided => .notProvidedTy

/-- How argparse applies a registered coercion to a supplied raw token:
with `type=None` the raw string is kept; otherwise the type is called on
the token as a single-argument constructor (`int(s)`, `str(s)`, `_bool(s)`,
`list(s)`; calling the zero-argument sentinel class fails). -/
def applyType : PyTy → String → Option Value
  | .noneTy, s => some (.VStr s)
  | .intTy, s => (pyInt? s).map Value.VInt
  | .strTy, s => some (.VStr s)
  | .boolTy, s => some (.VBool (_bool s))
  | .listTy, s => some (.VList (s.data.map fun c => String.mk [c]))
  | .notProvidedTy, _ => none

/-- The complete coercion pipeline a registered option applies to a raw
command-line token, given the default value of the governing descriptor. -/
def registeredCoerce (default : Value) (s : String) : Option Value :=
  applyType (defaultTypeOf default) s

/-- Applying the plain Python constructor `type(v)` to a raw string, with no
boolean override: for a boolean default this is `bool(s)`, plain truthiness.
Used to state what the Surface Builder does differently for booleans. -/
def pyTypeApply : Value → String → Option Value
  | .VInt _, s => (pyInt? s).map Value.VInt
  | .VStr _, s => some (.VStr s)
  | .VBool _, s => some (.VBool (pyBool s))
  | .VList _, s => some (.VList (s.data.map fun c => String.mk [c]))
  | .VNone, _ => none
  | .VEmpty, _ => none
  | .VNotProvided, _ => none

/-- Python dict lookup `m[k]` (as an option) on an association list: the
value of the first entry whose key is `k`. -/
def lookupKey {β : Type} (k : String) : List (String × β) → Option β
  | [] => none
  | p :: rest => if p.1 = k then some p.2 else lookupKey k rest

/-- Python dict assignment `m[k] = v` on an association list: replace the
value in place when the key is present, append a fresh entry otherwise. -/
def dictInsert {β : Type} : List (String × β) → String → β → List (String × β)
  | [], k, v => [(k, v)]
  | p :: rest, k, v =>
      if p.1 = k then (k, v) :: rest else p :: dictInsert rest k v

/-- Python `dst.update(src)`: assign every entry of `src` into `dst` in
order. -/
def dictUpdate {β : Type} (m src : List (String × β)) : List (String × β) :=
  src.foldl (fun acc p => dictInsert acc p.1 p.2) m

/-- Whether a string begins with the two-dash option marker, the
`s.startswith('--')` test of `_parse_extra_kwargs`. -/
def startsWithDashDash (s : String) : Bool :=
  match s.data with
  | '-' :: '-' :: _ => true
  | _ => false

/-- Loop body of `_parse_extra_kwargs` (main.py lines 340-362), with the
pending key `_key` and accumulator `extra_kwargs` made explicit.
When the scanned token starts with `--` and embeds `=`, the key is the
slice between the marker and the first `=` and the value is everything
after it (the first `=` of the whole token is necessarily past the two
dashes); a bare `--key` makes the key pending; a non-option token with no
pending key is ignored; a pending key consumes the next token as its value
unless that token is itself option-shaped, which raises; a key left
pending at the end of the stream raises. -/
def parseExtraKwargsAux :
    Option String → List String → List (String × String) →
      Except ClifyError (List (String × String))
  | some k, [], _ => .error (.malformedExtra k)
  | none, [], acc => .ok acc
  | some k, s :: rest, acc =>
      if startsWithDashDash s then .error (.malformedExtra k)
      else parseExtraKwargsAux none rest (dictInsert acc k s)
  | none, s :: rest, acc =>
      if startsWithDashDash s then
        if (s.data.drop 2).contains '=' then
          parseExtraKwargsAux none rest
            (dictInsert acc
              (String.mk ((s.data.drop 2).takeWhile fun c => c != '='))
              (String.mk (((s.data.drop 2).dropWhile fun c => c != '=').drop 1)))
        else
          parseExtraKwargsAux (some (String.mk (s.data.drop 2))) rest acc
      else
        parseExtraKwargsAux none rest acc

/-- The function `_parse_extra_kwargs` (main.py lines 325-364): fold the
leftover token list into a key-to-raw-string mapping. -/
def _parse_extra_kwargs (extra_cl : List String) :
    Except ClifyError (List (String × String)) :=
  parseExtraKwargsAux none extra_cl []

/-- The dict comprehension of main.py lines 191-193 and 301-303: keep the
parsed options whose value is not the `NOT_PROVIDED` sentinel. -/
def filterNotProvided (m : List (String × Value)) : List (String × Value) :=
  m.filter fun p => p.2 ≠ Value.VNotProvided

/-- The three-way key intersection
`set(kwargs) & set(cl_kwargs) & set(extra_kwargs)` of main.py lines 195 and
305, as the list of programmatic keyword keys also present in the other two
mappings. -/
def overlapKeys (kwargs cl_kwargs : List (String × Value))
    (extra_kwargs : List (String × String)) : List String :=
  (kwargs.map Prod.fst).filter fun k =>
    k ∈ cl_kwargs.map Prod.fst ∧ k ∈ extra_kwargs.map Prod.fst

/-- One parsed entry of the recognized-option namespace: a registered
option either received a raw token, which goes through its registered
coercion, or kept its argparse default `NOT_PROVIDED` (main.py lines
164-168). -/
def parseOneArg (d : ParamDescriptor) (supplied : List (String × String)) :
    Option (String × Value) :=
  match lookupKey d.name supplied with
  | some raw => (registeredCoerce d.default raw).map fun v => (d.name, v)
  | none => some (d.name, Value.VNotProvided)

/-- Model of the external parse of the registered options
(`parse_known_args` restricted to the declared surface): every descriptor
of the surface yields one entry; `supplied` maps option names to the raw
token given on the command line, absent names keep the sentinel default.
A coercion failure aborts the whole parse, as argparse does. -/
def parseClArgs :
    List ParamDescriptor → List (String × String) → Option (List (String × Value))
  | [], _ => some []
  | d :: ds, supplied =>
      match parseOneArg d supplied, parseClArgs ds supplied with
      | some p, some rest => some (p :: rest)
      | _, _ => none

/-- The method `CommandLineFunction.call_after_parse` (main.py lines
182-206): lex the leftover tokens, apply the strict-mode check, drop the
extra mapping unless `collect_kwargs`, filter the sentinel out of the
recognized options, raise on a three-way key overlap, then merge
programmatic keywords with recognized and extra keywords and hand the
wrapped function its positional and keyword arguments. The returned pair
is the argument list of the dispatched call `self.wrapped(*pargs, **kwargs)`.
The conflict raise at line 197 formats `self.wrapped.__name__`, which a
function target always carries, so the named conflict error is constructed
successfully in this variant. -/
def CommandLineFunction.call_after_parse (strict collect_kwargs : Bool)
    (cl_arg_vals : List (String × Value)) (pargs : List Value)
    (extra_cl : List String) (kwargs : List (String × Value)) :
    Except ClifyError (List Value × List (String × Value)) :=
  match _parse_extra_kwargs extra_cl with
  | .error e => .error e
  | .ok extra_kwargs =>
    if strict = true ∧ extra_kwargs ≠ [] then
      .error (.strictViolation (extra_kwargs.map Prod.fst))
    else if overlapKeys kwargs (filterNotProvided cl_arg_vals)
        (if collect_kwargs then extra_kwargs else []) ≠ [] then
      .error (.conflict (overlapKeys kwargs (filterNotProvided cl_arg_vals)
        (if collect_kwargs then extra_kwargs else [])))
    else
      .ok (pargs,
        dictUpdate (dictUpdate kwargs (filterNotProvided cl_arg_vals))
          ((if collect_kwargs then extra_kwargs else []).map
            fun p => (p.1, Value.VStr p.2)))

/-- The exception produced by the conflict raise of `CommandLineObject.parse`
(main.py line 307): the format call in
`raise TypeError("{} got multiple values ...".format(self.obj.__name__, ...))`
evaluates `self.obj.__name__` before the TypeError exists, so when the
target has no `__name__` attribute — the `DictWrapper` of a mapping
target, or an ordinary instance — the raise itself fails with
AttributeError and the conflicting keys are never named; only a target
that does expose `__name__` yields the named conflict error. `objName` is
the `__name__` attribute of the target, when present. -/
def objConflictError (objName : Option String) (overlap : List String) : ClifyError :=
  match objName with
  | some _ => .conflict overlap
  | none => .attributeError "__name__"

/-- The method `CommandLineObject.parse` (main.py lines 288-315), with the
attribute mapping of the target object threaded through as explicit state
and `objName` standing for the `__name__` attribute of the target, when it
has one: the body performs the same lex, strict check, sentinel filter,
overlap check and merge as the function binder and returns the merged
mapping, except that its conflict raise at line 307 touches
`self.obj.__name__` and so degrades to an AttributeError for targets
without `__name__`; the body contains no assignment to the object, so the
state component comes back unchanged. -/
def CommandLineObject.parse (strict collect_kwargs : Bool)
    (objName : Option String)
    (obj : List (String × Value)) (cl_arg_vals : List (String × Value))
    (extra_cl : List String) (kwargs : List (String × Value)) :
    Except ClifyError (List (String × Value) × List (String × Value)) :=
  match _parse_extra_kwargs extra_cl with
  | .error e => .error e
  | .ok extra_kwargs =>
    if strict = true ∧ extra_kwargs ≠ [] then
      .error (.strictViolation (extra_kwargs.map Prod.fst))
    else if overlapKeys kwargs (filterNotProvided cl_arg_vals)
        (if collect_kwargs then extra_kwargs else []) ≠ [] then
      .error (objConflictError objName
        (overlapKeys kwargs (filterNotProvided cl_arg_vals)
          (if collect_kwargs then extra_kwargs else [])))
    else
      .ok (dictUpdate (dictUpdate kwargs (filterNotProvided cl_arg_vals))
          ((if collect_kwargs then extra_kwargs else []).map
            fun p => (p.1, Value.VStr p.2)),
        obj)

/-- Whether a value is one of the two module sentinels. -/
def isSentinel (v : Value) : Prop :=
  v = Value.VEmpty ∨ v = Value.VNotProvided

instance (v : Value) : Decidable (isSentinel v) := by
  unfold isSentinel; infer_instance

/-- Whether a bind result failed with the error kind of the extra-token
lexer (spec name MalformedExtraArgumentError). -/
def isMalformedError {α : Type} : Except ClifyError α → Bool
  | .error (.malformedExtra _) => true
  | _ => false

/-- Whether a bind result failed with the conflict error kind (spec name
ConflictError). -/
def isConflictError {α : Type} : Except ClifyError α → Bool
  | .error (.conflict _) => true
  | _ => false

/-! Lemmas about the dict model. -/

theorem lookup_dictInsert {β : Type} (m : List (String × β)) (k k' : String) (v : β) :
    lookupKey k (dictInsert m k' v) = if k' = k then some v else lookupKey k m := by
  induction m with
  | nil => by_cases h : k' = k <;> simp [dictInsert, lookupKey, h]
  | cons p t ih =>
      obtain ⟨a, b⟩ := p
      by_cases hp : a = k'
      · by_cases h : k' = k <;> simp [dictInsert, hp, lookupKey, h]
      · by_cases hk : a = k
        · have hkk : ¬ k' = k := fun hc => hp (hk.trans hc.symm)
          simp only [dictInsert]
          rw [if_neg hp]
          simp [lookupKey, hk, hkk]
        · simp [dictInsert, hp, lookupKey, hk, ih]

theorem lookup_append {β : Type} (l1 l2 : List (String × β)) (k : String) :
    lookupKey k (l1 ++ l2)
      = (lookupKey k l1).orElse fun _ => lookupKey k l2 := by
  induction l1 with
  | nil => simp [lookupKey, Option.orElse]
  | cons p t ih =>
      obtain ⟨a, b⟩ := p
      by_cases hk : a = k <;> simp [lookupKey, hk, ih, Option.orElse]

theorem lookup_eq_none_of_not_mem {β : Type} (m : List (String × β)) (k : String)
    (h : k ∉ m.map Prod.fst) : lookupKey k m = none := by
  induction m with
  | nil => simp [lookupKey]
  | cons p t ih =>
      obtain ⟨a, b⟩ := p
      simp only [List.map_cons, List.mem_cons, not_or] at h
      have ha : ¬ a = k := fun hc => h.1 hc.symm
      simp [lookupKey, ha, ih h.2]

theorem lookup_reverse_of_nodup {β : Type} (m : List (String × β))
    (h : (m.map Prod.fst).Nodup) (k : String) :
    lookupKey k m.reverse = lookupKey k m := by
  induction m with
  | nil => rfl
  | cons p t ih =>
      obtain ⟨a, b⟩ := p
      simp only [List.map_cons, List.nodup_cons] at h
      rw [List.reverse_cons, lookup_append]
      by_cases hk : a = k
      · have hnone : lookupKey k t.reverse = none := by
          apply lookup_eq_none_of_not_mem
          simp only [List.map_reverse, List.mem_reverse, ← hk]
          exact h.1
        rw [hnone]
        simp [lookupKey, hk, Option.orElse]
      · rw [ih h.2]
        cases hl : lookupKey k t <;> simp [lookupKey, hk, Option.orElse, hl]

theorem lookup_dictUpdate {β : Type} (src : List (String × β)) :
    ∀ (m : List (String × β)) (k : String),
      lookupKey k (dictUpdate m src)
        = (lookupKey k src.reverse).orElse fun _ => lookupKey k m := by
  induction src with
  | nil => intro m k; simp [dictUpdate, lookupKey, Option.orElse]
  | cons p t ih =>
      intro m k
      obtain ⟨a, b⟩ := p
      show lookupKey k (dictUpdate (dictInsert m a b) t) = _
      rw [ih]
      simp only [List.reverse_cons, lookup_append, lookup_dictInsert]
      cases hl : lookupKey k t.reverse <;>
        by_cases hk : a = k <;> simp [lookupKey, hk, Option.orElse, hl]

theorem mem_dictInsert {β : Type} (m : List (String × β)) (k : String) (v : β)
    (x : String × β) (hx : x ∈ dictInsert m k v) : x ∈ m ∨ x = (k, v) := by
  induction m with
  | nil =>
      right
      simpa [dictInsert] using hx
  | cons p t ih =>
      by_cases hp : p.1 = k
      · simp only [dictInsert, if_pos hp, List.mem_cons] at hx
        rcases hx with h | h
        · right; exact h
        · left; exact List.mem_cons_of_mem _ h
      · simp only [dictInsert, if_neg hp, List.mem_cons] at hx
        rcases hx with h | h
        · left; exact h ▸ List.mem_cons_self _ _
        · rcases ih h with h2 | h2
          · left; exact List.mem_cons_of_mem _ h2
          · right; exact h2

theorem mem_dictUpdate {β : Type} (src : List (String × β)) :
    ∀ (m : List (String × β)) (x : String × β),
      x ∈ dictUpdate m src → x ∈ m ∨ x ∈ src := by
  induction src with
  | nil => intro m x hx; left; simpa [dictUpdate] using hx
  | cons p t ih =>
      intro m x hx
      have hx' : x ∈ dictUpdate (dictInsert m p.1 p.2) t := hx
      rcases ih _ _ hx' with h | h
      · rcases mem_dictInsert _ _ _ _ h with h2 | h2
        · left; exact h2
        · right
          rw [h2]
          exact List.mem_cons_self _ _
      · right; exact List.mem_cons_of_mem _ h

theorem keys_dictInsert_mem {β : Type} (m : List (String × β)) (k a : String) (v : β)
    (h : a ∈ (dictInsert m k v).map Prod.fst) : a ∈ m.map Prod.fst ∨ a = k := by
  rcases List.mem_map.mp h with ⟨x, hx, hxa⟩
  rcases mem_dictInsert _ _ _ _ hx with h2 | h2
  · left; exact hxa ▸ List.mem_map_of_mem Prod.fst h2
  · right; rw [← hxa, h2]

theorem nodup_keys_dictInsert {β : Type} (m : List (String × β)) (k : String) (v : β)
    (h : (m.map Prod.fst).Nodup) : ((dictInsert m k v).map Prod.fst).Nodup := by
  induction m with
  | nil => simp [dictInsert]
  | cons p t ih =>
      simp only [List.map_cons, List.nodup_cons] at h
      by_cases hp : p.1 = k
      · simp only [dictInsert, if_pos hp, List.map_cons, List.nodup_cons]
        exact ⟨by rw [← hp]; exact h.1, h.2⟩
      · simp only [dictInsert, if_neg hp, List.map_cons, List.nodup_cons]
        refine ⟨fun hmem => ?_, ih h.2⟩
        rcases keys_dictInsert_mem t k p.1 v hmem with h2 | h2
        · exact h.1 h2
        · exact hp h2

/-! Lemmas about the extra-token lexer. -/

theorem parseExtraKwargsAux_error_shape (toks : List String) :
    ∀ st acc e, parseExtraKwargsAux st toks acc = .error e →
      ∃ k2, e = ClifyError.malformedExtra k2 := by
  induction toks with
  | nil =>
      intro st acc e h
      cases st with
      | none => simp [parseExtraKwargsAux] at h
      | some k =>
          simp only [parseExtraKwargsAux, Except.error.injEq] at h
          exact ⟨k, h.symm⟩
  | cons s rest ih =>
      intro st acc e h
      cases st with
      | some k =>
          by_cases hs : startsWithDashDash s
          · simp only [parseExtraKwargsAux, if_pos hs, Except.error.injEq] at h
            exact ⟨k, h.symm⟩
          · simp only [parseExtraKwargsAux, if_neg hs] at h
            exact ih _ _ _ h
      | none =>
          by_cases hs : startsWithDashDash s
          · by_cases he : (s.data.drop 2).contains '=' = true
            · simp only [parseExtraKwargsAux, if_pos hs, if_pos he] at h
              exact ih _ _ _ h
            · simp only [parseExtraKwargsAux, if_pos hs, if_neg he] at h
              exact ih _ _ _ h
          · simp only [parseExtraKwargsAux, if_neg hs] at h
            exact ih _ _ _ h

theorem parseExtraKwargsAux_nodup (toks : List String) :
    ∀ st acc m, (acc.map Prod.fst).Nodup →
      parseExtraKwargsAux st toks acc = .ok m → (m.map Prod.fst).Nodup := by
  induction toks with
  | nil =>
      intro st acc m hacc h
      cases st with
      | none =>
          simp only [parseExtraKwargsAux, Except.ok.injEq] at h
          exact h ▸ hacc
      | some k => simp [parseExtraKwargsAux] at h
  | cons s rest ih =>
      intro st acc m hacc h
      cases st with
      | some k =>
          by_cases hs : startsWithDashDash s
          · simp [parseExtraKwargsAux, if_pos hs] at h
          · simp only [parseExtraKwargsAux, if_neg hs] at h
            exact ih _ _ _ (nodup_keys_dictInsert _ _ _ hacc) h
      | none =>
          by_cases hs : startsWithDashDash s
          · by_cases he : (s.data.drop 2).contains '=' = true
            · simp only [parseExtraKwargsAux, if_pos hs, if_pos he] at h
              exact ih _ _ _ (nodup_keys_dictInsert _ _ _ hacc) h
            · simp only [parseExtraKwargsAux, if_pos hs, if_neg he] at h
              exact ih _ _ _ hacc h
          · simp only [parseExtraKwargsAux, if_neg hs] at h
            exact ih _ _ _ hacc h

theorem parse_extra_kwargs_nodup (extra_cl : List String)
    (m : List (String × String)) (h : _parse_extra_kwargs extra_cl = .ok m) :
    (m.map Prod.fst).Nodup :=
  parseExtraKwargsAux_nodup extra_cl none [] m (by simp) h

theorem parse_extra_kwargs_error_shape (extra_cl : List String) (e : ClifyError)
    (h : _parse_extra_kwargs extra_cl = .error e) :
    ∃ k2, e = ClifyError.malformedExtra k2 :=
  parseExtraKwargsAux_error_shape extra_cl none [] e h

theorem parseExtraKwargsAux_cons_fails (rest : List String)
    (hrest : ∀ st acc, isMalformedError (parseExtraKwargsAux st rest acc) = true)
    (x : String) (st : Option String) (acc : List (String × String)) :
    isMalformedError (parseExtraKwargsAux st (x :: rest) acc) = true := by
  cases st with
  | some k =>
      by_cases hs : startsWithDashDash x
      · simp [parseExtraKwargsAux, if_pos hs, isMalformedError]
      · simp only [parseExtraKwargsAux, if_neg hs]
        exact hrest _ _
  | none =>
      by_cases hs : startsWithDashDash x
      · by_cases he : (x.data.drop 2).contains '=' = true
        · simp only [parseExtraKwargsAux, if_pos hs, if_pos he]
          exact hrest _ _
        · simp only [parseExtraKwargsAux, if_pos hs, if_neg he]
          exact hrest _ _
      · simp only [parseExtraKwargsAux, if_neg hs]
        exact hrest _ _

theorem parseExtraKwargsAux_bare_then_option_fails (s t : String) (post : List String)
    (hs : startsWithDashDash s = true) (hse : (s.data.drop 2).contains '=' = false)
    (ht : startsWithDashDash t = true) :
    ∀ st acc, isMalformedError (parseExtraKwargsAux st (s :: t :: post) acc) = true := by
  intro st acc
  cases st with
  | some k => simp [parseExtraKwargsAux, if_pos hs, isMalformedError]
  | none =>
      have hse2 : ¬ (s.data.drop 2).contains '=' = true := by rw [hse]; simp
      simp only [parseExtraKwargsAux, if_pos hs, if_neg hse2, if_pos ht]
      simp [isMalformedError]

theorem parseExtraKwargsAux_dangling_fails (s : String)
    (hs : startsWithDashDash s = true) (hse : (s.data.drop 2).contains '=' = false) :
    ∀ st acc, isMalformedError (parseExtraKwargsAux st [s] acc) = true := by
  intro st acc
  cases st with
  | some k => simp [parseExtraKwargsAux, if_pos hs, isMalformedError]
  | none =>
      have hse2 : ¬ (s.data.drop 2).contains '=' = true := by rw [hse]; simp
      simp only [parseExtraKwargsAux, if_pos hs, if_neg hse2]
      simp [parseExtraKwargsAux, isMalformedError]

/-! Lemmas about coercion outputs and the recognized-option parse. -/

theorem applyType_not_sentinel (t : PyTy) (s : String) (v : Value)
    (h : applyType t s = some v) : ¬ isSentinel v := by
  cases t with
  | noneTy =>
      simp only [applyType, Option.some.injEq] at h
      simp [← h, isSentinel]
  | intTy =>
      cases hi : pyInt? s with
      | none => simp [applyType, hi] at h
      | some n =>
          simp only [applyType, hi, Option.map_some', Option.some.injEq] at h
          simp [← h, isSentinel]
  | strTy =>
      simp only [applyType, Option.some.injEq] at h
      simp [← h, isSentinel]
  | boolTy =>
      simp only [applyType, Option.some.injEq] at h
      simp [← h, isSentinel]
  | listTy =>
      simp only [applyType, Option.some.injEq] at h
      simp [← h, isSentinel]
  | notProvidedTy => simp [applyType] at h

theorem mem_filterNotProvided (m : List (String × Value)) (x : String × Value)
    (hx : x ∈ filterNotProvided m) : x ∈ m ∧ x.2 ≠ Value.VNotProvided := by
  have h := List.mem_filter.mp hx
  exact ⟨h.1, by simpa using h.2⟩

theorem mem_parseClArgs (ds : List ParamDescriptor) :
    ∀ supplied cl x, parseClArgs ds supplied = some cl → x ∈ cl →
      x.2 = Value.VNotProvided ∨ ∃ d raw, registeredCoerce d raw = some x.2 := by
  induction ds with
  | nil =>
      intro sup cl x h hx
      simp only [parseClArgs, Option.some.injEq] at h
      rw [← h] at hx
      simp at hx
  | cons d ds ih =>
      intro sup cl x h hx
      cases hp : parseOneArg d sup with
      | none => simp [parseClArgs, hp] at h
      | some p =>
          cases hr : parseClArgs ds sup with
          | none => simp [parseClArgs, hp, hr] at h
          | some rest =>
              simp only [parseClArgs, hp, hr, Option.some.injEq] at h
              rw [← h] at hx
              rcases List.mem_cons.mp hx with hxp | hxr
              · cases hl : lookupKey d.name sup with
                | none =>
                    left
                    simp only [parseOneArg, hl, Option.some.injEq] at hp
                    rw [hxp, ← hp]
                | some raw =>
                    cases hc : registeredCoerce d.default raw with
                    | none => simp [parseOneArg, hl, hc] at hp
                    | some v =>
                        right
                        refine ⟨d.default, raw, ?_⟩
                        simp only [parseOneArg, hl, hc, Option.map_some',
                          Option.some.injEq] at hp
                        rw [hxp, ← hp, hc]
              · exact ih sup rest x hr hxr

/-! Inversion of a successful bind. -/

theorem call_after_parse_ok_inversion (strict collect : Bool)
    (cl : List (String × Value)) (pargs ps : List Value)
    (extra_cl : List String) (kwargs m : List (String × Value))
    (h : CommandLineFunction.call_after_parse strict collect cl pargs extra_cl kwargs
      = .ok (ps, m)) :
    ps = pargs ∧ ∃ ex, _parse_extra_kwargs extra_cl = .ok ex ∧
      ¬(strict = true ∧ ex ≠ []) ∧
      overlapKeys kwargs (filterNotProvided cl) (if collect then ex else []) = [] ∧
      m = dictUpdate (dictUpdate kwargs (filterNotProvided cl))
            ((if collect then ex else []).map fun p => (p.1, Value.VStr p.2)) := by
  cases hex : _parse_extra_kwargs extra_cl with
  | error e => simp [CommandLineFunction.call_after_parse, hex] at h
  | ok ex =>
      simp only [CommandLineFunction.call_after_parse, hex] at h
      by_cases hs : strict = true ∧ ex ≠ []
      · rw [if_pos hs] at h
        simp at h
      · rw [if_neg hs] at h
        by_cases ho : overlapKeys kwargs (filterNotProvided cl)
            (if collect then ex else []) ≠ []
        · rw [if_pos ho] at h
          simp at h
        · rw [if_neg ho] at h
          simp only [Except.ok.injEq, Prod.mk.injEq] at h
          exact ⟨h.1.symm, ex, rfl, hs, not_not.mp ho, h.2.symm⟩

theorem registeredCoerce_not_sentinel (d : Value) (s : String) (v : Value)
    (h : registeredCoerce d s = some v) : ¬ isSentinel v :=
  applyType_not_sentinel (defaultTypeOf d) s v h

theorem nodup_keys_filterNotProvided (m : List (String × Value))
    (h : (m.map Prod.fst).Nodup) : ((filterNotProvided m).map Prod.fst).Nodup :=
  List.Nodup.sublist ((List.filter_sublist _).map Prod.fst) h

theorem keys_map_vstr (l : List (String × String)) :
    (l.map fun p => (p.1, Value.VStr p.2)).map Prod.fst = l.map Prod.fst := by
  induction l with
  | nil => rfl
  | cons p t ih => simp [ih]

/-! The claims. -/

/-- C1: the spec states that CLI positional tokens are appended after the
programmatic positionals, governed and coerced by the descriptors past the
programmatic ones. The code does not do this: it never registers a
positional capture, so positional tokens land in the leftover list, and
the lexer branch for non-option tokens ignores them (main.py line 354).
This is a code bug: the docstring of `CommandLineFunction` promises that
`python script.py 2` binds `2` to the parameter `x=1` of the wrapped
function, and lines 44-45 promise that command-line positionals follow the
programmatic ones. Concretely, for the surface of `f(x=1)` with
collect-extra enabled and CLI token `2`: the recognized-option parse
leaves `x` at the sentinel, the lexer maps the leftover `["2"]` to the
empty mapping, and the dispatch hands the target no positional and no
keyword arguments, silently dropping the token. -/
theorem cliPositionalTokenDropped :
    parseClArgs [⟨"x", Value.VInt 1, false⟩] [] = some [("x", Value.VNotProvided)] ∧
    _parse_extra_kwargs ["2"] = .ok [] ∧
    CommandLineFunction.call_after_parse false true
        [("x", Value.VNotProvided)] [] ["2"] []
      = .ok ([], []) :=
  ⟨rfl, rfl, rfl⟩

/-- C4: for every registered option, a default of `EMPTY` or `None`
registers no coercion, so a supplied value stays the raw string; a boolean
default registers the dedicated `_bool` coercion; any other default
registers the constructor `type(default)` applied to the token. -/
theorem coercionRule (d : Value) (s : String) :
    ((d = Value.VEmpty ∨ d = Value.VNone) →
      registeredCoerce d s = some (Value.VStr s)) ∧
    (∀ b, d = Value.VBool b → registeredCoerce d s = some (Value.VBool (_bool s))) ∧
    ((∀ b, d ≠ Value.VBool b) → d ≠ Value.VEmpty → d ≠ Value.VNone →
      registeredCoerce d s = pyTypeApply d s) := by
  refine ⟨fun h => ?_, fun b hb => ?_, fun hb he hn => ?_⟩
  · rcases h with h | h <;> rw [h] <;> rfl
  · rw [hb]; rfl
  · cases d with
    | VStr t => rfl
    | VInt n => rfl
    | VList l => rfl
    | VBool b => exact absurd rfl (hb b)
    | VNone => exact absurd rfl hn
    | VEmpty => exact absurd rfl he
    | VNotProvided => rfl

/-- Witness for C4 at three concrete defaults: an uncoerced `None` default,
a boolean default using the dedicated coercion, and an int default using
the plain constructor. -/
theorem coercionRuleWitness :
    registeredCoerce Value.VNone "abc" = some (Value.VStr "abc") ∧
    registeredCoerce (Value.VBool true) "0" = some (Value.VBool (_bool "0")) ∧
    registeredCoerce (Value.VInt 20) "7" = pyTypeApply (Value.VInt 20) "7" :=
  ⟨(coercionRule Value.VNone "abc").1 (Or.inr rfl),
   (coercionRule (Value.VBool true) "0").2.1 true rfl,
   (coercionRule (Value.VInt 20) "7").2.2 (by decide) (by decide) (by decide)⟩

/-- C5: the five tokens `0`, `F`, `f`, `False`, `false` coerce to false
under the dedicated boolean coercion, every other nonempty token coerces
to true, and a parameter whose default is `None` or absent is registered
with no coercion, so its supplied token always stays a raw string and is
never boolean-coerced. -/
theorem booleanCoercionLaw (s : String) :
    (s ∈ falseTokens → _bool s = false) ∧
    (s ∉ falseTokens → s ≠ "" → _bool s = true) ∧
    registeredCoerce Value.VNone s = some (Value.VStr s) ∧
    registeredCoerce Value.VEmpty s = some (Value.VStr s) := by
  refine ⟨fun h => ?_, fun h hne => ?_, rfl, rfl⟩
  · simp [_bool, h]
  · simp only [_bool, if_neg h, pyBool, bne_iff_ne, ne_eq]
    exact hne

/-- Witness for C5 at the concrete tokens named by the spec. -/
theorem booleanCoercionLawWitness :
    _bool "False" = false ∧ _bool "0" = false ∧ _bool "1" = true :=
  ⟨(booleanCoercionLaw "False").1 (by decide),
   (booleanCoercionLaw "0").1 (by decide),
   (booleanCoercionLaw "1").2.1 (by decide) (by decide)⟩

/-- C6: a bare option token immediately followed by another option token
makes the extra-token lexer fail with its malformed-argument error kind,
wherever the pair sits in the stream, and so does a bare option token that
ends the stream. -/
theorem lexerMalformed (pre post : List String) (s t : String) :
    (startsWithDashDash s = true → (s.data.drop 2).contains '=' = false →
      startsWithDashDash t = true →
      isMalformedError (_parse_extra_kwargs (pre ++ s :: t :: post)) = true) ∧
    (startsWithDashDash s = true → (s.data.drop 2).contains '=' = false →
      isMalformedError (_parse_extra_kwargs (pre ++ [s])) = true) := by
  constructor
  · intro hs hse ht
    have h : ∀ st acc,
        isMalformedError (parseExtraKwargsAux st (pre ++ s :: t :: post) acc) = true := by
      induction pre with
      | nil => exact parseExtraKwargsAux_bare_then_option_fails s t post hs hse ht
      | cons x xs ih => exact fun st acc => parseExtraKwargsAux_cons_fails _ ih x st acc
    exact h none []
  · intro hs hse
    have h : ∀ st acc,
        isMalformedError (parseExtraKwargsAux st (pre ++ [s]) acc) = true := by
      induction pre with
      | nil => exact parseExtraKwargsAux_dangling_fails s hs hse
      | cons x xs ih => exact fun st acc => parseExtraKwargsAux_cons_fails _ ih x st acc
    exact h none []

/-- Witness for C6: two consecutive option tokens fail, and a dangling
option fails. -/
theorem lexerMalformedWitness :
    isMalformedError (_parse_extra_kwargs ["--a", "--b"]) = true ∧
    isMalformedError (_parse_extra_kwargs ["--a"]) = true :=
  ⟨(lexerMalformed [] [] "--a" "--b").1 rfl rfl rfl,
   (lexerMalformed [] [] "--a" "--b").2 rfl rfl⟩

/-- C7 counterexample: the claim says any unrecognized command-line token
under strict mode aborts the bind, but an unrecognized token that is a
stray positional (not `--key`-shaped) is silently ignored by the lexer, so
the strict check sees an empty extra mapping and the bind succeeds and
dispatches. -/
theorem strictStrayPositionalAccepted :
    CommandLineFunction.call_after_parse true false
        [("x", Value.VNotProvided)] [] ["stray"] []
      = .ok ([], []) :=
  rfl

/-- C7 as amended: whenever strict mode is enabled and the extra-token
lexer extracts a non-empty keyword mapping from the unrecognized tokens,
the bind fails with StrictModeViolationError naming the unexpected keys,
and the target is not invoked; unrecognized tokens that are bare
positionals do not trigger the error. -/
theorem strictViolationOnExtraKwargs (collect : Bool)
    (cl : List (String × Value)) (pargs : List Value) (extra_cl : List String)
    (kwargs : List (String × Value)) (ex : List (String × String))
    (hex : _parse_extra_kwargs extra_cl = .ok ex) (hne : ex ≠ []) :
    CommandLineFunction.call_after_parse true collect cl pargs extra_cl kwargs
      = .error (.strictViolation (ex.map Prod.fst)) := by
  simp only [CommandLineFunction.call_after_parse, hex]
  rw [if_pos ⟨by trivial, hne⟩]

/-- Witness for the amended C7 at a concrete strict bind. -/
theorem strictViolationOnExtraKwargsWitness :
    CommandLineFunction.call_after_parse true false [] [] ["--k", "1"] []
      = .error (.strictViolation ["k"]) :=
  strictViolationOnExtraKwargs false [] [] ["--k", "1"] [] [("k", "1")] rfl
    (by decide)

/-- C10: for a boolean-defaulted parameter the empty-string token coerces
to false, although the empty string is not one of the five listed false
tokens: it falls through to Python truthiness, and the empty string is
falsy. -/
theorem emptyTokenCoercesFalse :
    _bool "" = false ∧ falseTokens.contains "" = false ∧
    registeredCoerce (Value.VBool true) "" = some (Value.VBool false) :=
  ⟨rfl, by decide, rfl⟩

/-- C2 counterexample: for the mapping-producing binder with a dict-backed
target (no `__name__` attribute), a key present in all three sources does
abort the bind, but with AttributeError from the message formatting of
main.py line 307, not with a ConflictError naming the conflicting keys:
dict target with attribute `a-b` (registered as option `--a-b` with
argparse destination `a_b`), CLI supplying both `--a-b 1` (recognized) and
the unrecognized spelling `--a_b 2` (collected by the lexer), and the
programmatic keyword `a_b`. -/
theorem objectConflictRaiseBreaks :
    CommandLineObject.parse false true none [("a-b", Value.VInt 0)]
        [("a_b", Value.VInt 1)] ["--a_b", "2"] [("a_b", Value.VInt 3)]
      = .error (.attributeError "__name__") ∧
    isConflictError (CommandLineObject.parse false true none [("a-b", Value.VInt 0)]
        [("a_b", Value.VInt 1)] ["--a_b", "2"] [("a_b", Value.VInt 3)]) = false :=
  ⟨rfl, rfl⟩

/-- C2 as amended: a keyword key present in all three sources aborts the
bind before anything is dispatched or returned, but the two binder
variants fail differently. The function binder fails with ConflictError
naming exactly the overlap: the conflict error occurs with key list `ks`
precisely when `ks` is the non-empty three-way overlap after strict and
collect handling. The object binder hits the raise of main.py line 307
exactly when the overlap is non-empty, and that raise names the overlap
keys in a ConflictError only when the target carries a `__name__`
attribute, otherwise itself failing with AttributeError, the keys never
named. A key belongs to the overlap precisely when all three sources hold
it, so a key held by only two of the three sources never triggers either
failure. -/
theorem conflictLaw (strict collect : Bool) (objName : Option String)
    (obj cl : List (String × Value)) (pargs : List Value)
    (extra_cl : List String) (kwargs : List (String × Value))
    (ks : List String) (ex : List (String × String)) :
    (CommandLineFunction.call_after_parse strict collect cl pargs extra_cl kwargs
        = .error (.conflict ks)
      ↔ ∃ ex2, _parse_extra_kwargs extra_cl = .ok ex2
          ∧ ¬(strict = true ∧ ex2 ≠ [])
          ∧ ks = overlapKeys kwargs (filterNotProvided cl)
              (if collect then ex2 else [])
          ∧ ks ≠ []) ∧
    (_parse_extra_kwargs extra_cl = .ok ex → ¬(strict = true ∧ ex ≠ []) →
      (overlapKeys kwargs (filterNotProvided cl) (if collect then ex else []) ≠ []
        ↔ CommandLineObject.parse strict collect objName obj cl extra_cl kwargs
            = .error (objConflictError objName
                (overlapKeys kwargs (filterNotProvided cl)
                  (if collect then ex else []))))) ∧
    (∀ (k : String) (m1 m2 : List (String × Value)) (m3 : List (String × String)),
      k ∈ overlapKeys m1 m2 m3
        ↔ k ∈ m1.map Prod.fst ∧ k ∈ m2.map Prod.fst ∧ k ∈ m3.map Prod.fst) := by
  refine ⟨?_, ?_, ?_⟩
  · cases hpe : _parse_extra_kwargs extra_cl with
    | error e =>
        simp only [CommandLineFunction.call_after_parse, hpe]
        constructor
        · intro h
          rcases parse_extra_kwargs_error_shape extra_cl e hpe with ⟨k2, hk2⟩
          rw [hk2] at h
          simp at h
        · rintro ⟨exr, hex2, -⟩
          cases hex2
    | ok exl =>
        simp only [CommandLineFunction.call_after_parse, hpe]
        by_cases hs : strict = true ∧ exl ≠ []
        · rw [if_pos hs]
          constructor
          · intro h; simp at h
          · rintro ⟨exr, hex2, hns, -⟩
            injection hex2 with h2
            subst h2
            exact absurd hs hns
        · rw [if_neg hs]
          by_cases ho : overlapKeys kwargs (filterNotProvided cl)
              (if collect then exl else []) ≠ []
          · rw [if_pos ho]
            constructor
            · intro h
              simp only [Except.error.injEq, ClifyError.conflict.injEq] at h
              exact ⟨exl, rfl, hs, h.symm, h ▸ ho⟩
            · rintro ⟨exr, hex2, -, hks, -⟩
              injection hex2 with h2
              subst h2
              rw [hks]
          · rw [if_neg ho]
            constructor
            · intro h; simp at h
            · rintro ⟨exr, hex2, -, hks, hne⟩
              injection hex2 with h2
              subst h2
              rw [not_not.mp ho] at hks
              exact absurd hks hne
  · intro hex hs
    simp only [CommandLineObject.parse, hex]
    rw [if_neg hs]
    constructor
    · intro ho
      rw [if_pos ho]
    · intro heq
      by_cases ho : overlapKeys kwargs (filterNotProvided cl)
          (if collect then ex else []) ≠ []
      · exact ho
      · rw [if_neg ho] at heq
        simp at heq
  · intro k m1 m2 m3
    simp [overlapKeys, List.mem_filter, and_assoc]

/-- Witness for the amended C2: the same three-way overlap as the
counterexample, but against a target that does carry a `__name__`
attribute, is reported as a ConflictError naming the overlapping key. -/
theorem conflictLawWitness :
    CommandLineObject.parse false true (some "obj") [("a-b", Value.VInt 0)]
        [("a_b", Value.VInt 1)] ["--a_b", "2"] [("a_b", Value.VInt 3)]
      = .error (.conflict ["a_b"]) := by
  have h := (conflictLaw false true (some "obj") [("a-b", Value.VInt 0)]
      [("a_b", Value.VInt 1)] [] ["--a_b", "2"] [("a_b", Value.VInt 3)]
      [] [("a_b", "2")]).2.1 rfl (by decide)
  exact h.mp (by decide)

/-- C3: on a successful bind, the dispatched keyword mapping is the
programmatic keywords updated by the sentinel-filtered CLI keywords,
updated by the extra keywords, and on every key the looked-up value obeys
the precedence extra over CLI over programmatic. -/
theorem mergePrecedence (strict collect : Bool) (cl : List (String × Value))
    (pargs ps : List Value) (extra_cl : List String)
    (kwargs m : List (String × Value)) (ex : List (String × String))
    (hcl : (cl.map Prod.fst).Nodup)
    (hex : _parse_extra_kwargs extra_cl = .ok ex)
    (hok : CommandLineFunction.call_after_parse strict collect cl pargs extra_cl kwargs
      = .ok (ps, m)) :
    m = dictUpdate (dictUpdate kwargs (filterNotProvided cl))
          ((if collect then ex else []).map fun p => (p.1, Value.VStr p.2)) ∧
    ∀ k, lookupKey k m
      = (lookupKey k
            ((if collect then ex else []).map fun p => (p.1, Value.VStr p.2))).orElse
          fun _ => (lookupKey k (filterNotProvided cl)).orElse
            fun _ => lookupKey k kwargs := by
  rcases call_after_parse_ok_inversion _ _ _ _ _ _ _ _ hok with ⟨hps, ex2, hex2, hs, ho, hm⟩
  rw [hex] at hex2
  injection hex2 with h2
  subst h2
  refine ⟨hm, fun k => ?_⟩
  have hclk : ((filterNotProvided cl).map Prod.fst).Nodup :=
    nodup_keys_filterNotProvided cl hcl
  have hexnd : ((if collect then ex else []).map Prod.fst).Nodup := by
    cases collect with
    | true => simpa using parse_extra_kwargs_nodup extra_cl ex hex
    | false => simp
  have hexk : (((if collect then ex else []).map
      fun p => (p.1, Value.VStr p.2)).map Prod.fst).Nodup := by
    rw [keys_map_vstr]
    exact hexnd
  rw [hm]
  simp only [lookup_dictUpdate, lookup_reverse_of_nodup _ hexk,
    lookup_reverse_of_nodup _ hclk]

/-- Witness for C3 at a concrete bind where the key `a` is only
programmatic, `b` is programmatic and CLI, `c` is CLI and extra, and `d`
is only extra: the merged mapping takes `b` from the CLI source and `c`
from the extra source. -/
theorem mergePrecedenceWitness :
    ([("a", Value.VStr "pr"), ("b", Value.VStr "cl"),
        ("c", Value.VStr "ex"), ("d", Value.VStr "ex")] : List (String × Value))
      = dictUpdate (dictUpdate [("a", Value.VStr "pr"), ("b", Value.VStr "pr")]
          (filterNotProvided [("b", Value.VStr "cl"), ("c", Value.VStr "cl")]))
        (([("c", "ex"), ("d", "ex")] : List (String × String)).map
          fun p => (p.1, Value.VStr p.2)) ∧
    lookupKey "c" ([("a", Value.VStr "pr"), ("b", Value.VStr "cl"),
        ("c", Value.VStr "ex"), ("d", Value.VStr "ex")] : List (String × Value))
      = (lookupKey "c" (([("c", "ex"), ("d", "ex")] : List (String × String)).map
            fun p => (p.1, Value.VStr p.2))).orElse
          fun _ => (lookupKey "c"
              (filterNotProvided [("b", Value.VStr "cl"), ("c", Value.VStr "cl")])).orElse
            fun _ => lookupKey "c" [("a", Value.VStr "pr"), ("b", Value.VStr "pr")] := by
  have h := mergePrecedence false true
    [("b", Value.VStr "cl"), ("c", Value.VStr "cl")] [] []
    ["--c=ex", "--d=ex"]
    [("a", Value.VStr "pr"), ("b", Value.VStr "pr")]
    [("a", Value.VStr "pr"), ("b", Value.VStr "cl"),
      ("c", Value.VStr "ex"), ("d", Value.VStr "ex")]
    [("c", "ex"), ("d", "ex")]
    (by decide) rfl rfl
  exact ⟨h.1, h.2 "c"⟩

/-- C8: neither sentinel reaches the dispatched call: when the recognized
options come from the modelled external parse of a declared surface and
the programmatic arguments are sentinel-free, every positional and every
keyword value handed to the target is sentinel-free; in particular every
option still holding `NOT_PROVIDED` is dropped by the keyword filter. -/
theorem noSentinelReachesDispatch (strict collect : Bool)
    (ds : List ParamDescriptor) (supplied : List (String × String))
    (cl : List (String × Value)) (pargs ps : List Value)
    (extra_cl : List String) (kwargs m : List (String × Value))
    (hp : parseClArgs ds supplied = some cl)
    (hargs : ∀ v ∈ pargs, ¬ isSentinel v)
    (hkw : ∀ kv ∈ kwargs, ¬ isSentinel (Prod.snd kv))
    (hok : CommandLineFunction.call_after_parse strict collect cl pargs extra_cl kwargs
      = .ok (ps, m)) :
    (∀ v ∈ ps, ¬ isSentinel v) ∧ (∀ kv ∈ m, ¬ isSentinel (Prod.snd kv)) := by
  rcases call_after_parse_ok_inversion _ _ _ _ _ _ _ _ hok with ⟨hps, ex, hex, hs, ho, hm⟩
  constructor
  · rw [hps]; exact hargs
  · intro kv hkv
    rw [hm] at hkv
    rcases mem_dictUpdate _ _ _ hkv with h1 | h1
    · rcases mem_dictUpdate _ _ _ h1 with h2 | h2
      · exact hkw kv h2
      · rcases mem_filterNotProvided _ _ h2 with ⟨h3, hnp⟩
        rcases mem_parseClArgs ds supplied cl kv hp h3 with h4 | ⟨d, raw, h4⟩
        · exact absurd h4 hnp
        · exact registeredCoerce_not_sentinel _ _ _ h4
    · rcases List.mem_map.mp h1 with ⟨p, hpmem, hpe⟩
      rw [← hpe]
      simp [isSentinel]

/-- Witness for C8 at a concrete bind of the surface of one int-defaulted
parameter with a supplied token, one programmatic positional and one
programmatic keyword. -/
theorem noSentinelReachesDispatchWitness : ¬ isSentinel (Value.VInt 0) := by
  have h := noSentinelReachesDispatch false true
    [⟨"x", Value.VInt 20, false⟩] [("x", "0")] [("x", Value.VInt 0)]
    [Value.VStr "a"] [Value.VStr "a"] []
    [("z", Value.VList ["z"])]
    [("z", Value.VList ["z"]), ("x", Value.VInt 0)]
    rfl (by decide) (by decide) rfl
  exact h.2 ("x", Value.VInt 0) (by decide)

/-- C9: the mapping-producing bind returns the merged keyword mapping and
leaves the target object untouched: the state component of the result is
the input attribute mapping itself, for object-backed and mapping-backed
targets alike. -/
theorem objectParseFrame (strict collect : Bool) (objName : Option String)
    (obj cl kwargs r obj2 : List (String × Value)) (extra_cl : List String)
    (ex : List (String × String))
    (hex : _parse_extra_kwargs extra_cl = .ok ex)
    (hok : CommandLineObject.parse strict collect objName obj cl extra_cl kwargs
      = .ok (r, obj2)) :
    obj2 = obj ∧
    r = dictUpdate (dictUpdate kwargs (filterNotProvided cl))
          ((if collect then ex else []).map fun p => (p.1, Value.VStr p.2)) := by
  simp only [CommandLineObject.parse, hex] at hok
  by_cases hs : strict = true ∧ ex ≠ []
  · rw [if_pos hs] at hok; simp at hok
  · rw [if_neg hs] at hok
    by_cases ho : overlapKeys kwargs (filterNotProvided cl)
        (if collect then ex else []) ≠ []
    · rw [if_pos ho] at hok; simp at hok
    · rw [if_neg ho] at hok
      simp only [Except.ok.injEq, Prod.mk.injEq] at hok
      exact ⟨hok.2.symm, hok.1.symm⟩

/-- Witness for C9: binding an object with attributes `x = 0` and
`y = temp` against a CLI that re-assigns `x` returns the merged mapping
and hands back the attribute mapping unchanged. -/
theorem objectParseFrameWitness :
    ([("x", Value.VInt 0), ("y", Value.VStr "temp")] : List (String × Value))
      = [("x", Value.VInt 0), ("y", Value.VStr "temp")] ∧
    ([("x", Value.VInt 2)] : List (String × Value))
      = dictUpdate (dictUpdate []
          (filterNotProvided [("x", Value.VInt 2), ("y", Value.VNotProvided)]))
        (([] : List (String × String)).map fun p => (p.1, Value.VStr p.2)) :=
  objectParseFrame false false none
    [("x", Value.VInt 0), ("y", Value.VStr "temp")]
    [("x", Value.VInt 2), ("y", Value.VNotProvided)]
    [] [("x", Value.VInt 2)]
    [("x", Value.VInt 0), ("y", Value.VStr "temp")]
    [] [] rfl rfl

example : _bool "False" = false := by decide
example : _bool "" = false := by decide
example : _bool "1" = true := by decide
example : pyInt? "21" = some 21 := by decide
example : pyInt? " -4 " = some (-4) := by decide
example : pyInt? "x1" = none := by decide
example : _parse_extra_kwargs ["--k=hellothere", "--l", "0.01"]
    = .ok [("k", "hellothere"), ("l", "0.01")] := rfl
example : _parse_extra_kwargs ["--a", "--b"] = .error (.malformedExtra "a") := rfl
example : _parse_extra_kwargs ["--a"] = .error (.malformedExtra "a") := rfl
example : _parse_extra_kwargs ["stray"] = .ok [] := rfl
